import Mathlib

/-!
Verification of the dual-pane file-system navigator of
`staging_setup_utility.py` (class `FileSystemNavigator` plus the GUI
copy/move handlers of `SystemUtilityGUI`).

The navigator is embedded shallowly: the tkinter treeview is modelled as the
ordered list of its top-level rows, the operating-system facilities the code
calls (`os.scandir`, `os.path.isdir`, `os.path.dirname`, `os.path.basename`,
`os.path.join`, `os.path.exists`) are an explicit `OS` record of functions,
and the PowerShell runner is a function argument.  Every navigator method
becomes a pure function on a `NavState` record.
-/

namespace StagingSetup

/-- Kind of a filesystem entry, as reported by `DirEntry.is_dir()`. -/
inductive EntryKind
  | directory
  | file
deriving DecidableEq, Repr

/-- One entry yielded by `os.scandir`: its `name`, its full `path`
(`entry.path`), and whether it is a directory. -/
structure FSEntry where
  name : String
  path : String
  kind : EntryKind
deriving DecidableEq, Repr

/-- Outcome of enumerating a directory: the entry list in on-disk order, a
`PermissionError`, or any other exception carrying `str(e)`. -/
inductive ListingResult
  | ok (entries : List FSEntry)
  | permissionDenied
  | error (msg : String)
deriving DecidableEq, Repr

/-- The external operating-system collaborators used by the navigator. -/
structure OS where
  listing : String → ListingResult
  isDir : String → Bool
  dirname : String → String
  basename : String → String
  joinPath : String → String → String
  pathExists : String → Bool

/-- One row of the treeview: display `text`, the two `values` columns
(full path and `Directory`/`File`/empty type), and the tag tuple. -/
structure Row where
  text : String
  pathValue : String
  typeValue : String
  tags : List String
deriving DecidableEq, Repr

/-- State of one `FileSystemNavigator` instance: the displayed rows, the
`hidden_files` flag, `current_path`, `navigation_history`, and the
`populated_nodes` set (kept as a duplicate-free list). -/
structure NavState where
  rows : List Row
  hiddenFiles : Bool
  currentPath : Option String
  history : List String
  populatedNodes : List String
deriving DecidableEq, Repr

/-- `not e.is_dir()` of the Python sort key, as a rank: directories 0,
files 1. -/
def fileRank (e : FSEntry) : Nat :=
  match e.kind with
  | .directory => 0
  | .file => 1

/-- `e.name.lower()` of the Python sort key, taken as the code-point
sequence of the lower-cased name (Python compares strings by code points). -/
def lowerKey (e : FSEntry) : List Nat :=
  e.name.data.map fun c => (Char.toLower c).toNat

/-- Strict lexicographic order on code-point sequences: exactly Python's
`<` on strings. -/
def natsLt : List Nat → List Nat → Bool
  | _, [] => false
  | [], _ :: _ => true
  | a :: as, b :: bs => if a = b then natsLt as bs else decide (a < b)

/-- Strict order on the Python sort key `(not e.is_dir(), e.name.lower())`. -/
def keyLtB (a b : FSEntry) : Bool :=
  decide (fileRank a < fileRank b) ||
    (decide (fileRank a = fileRank b) && natsLt (lowerKey a) (lowerKey b))

/-- Non-strict key order; `sorted` places `a` no later than `b` exactly when
the key of `b` is not strictly below the key of `a`. -/
def keyLe (a b : FSEntry) : Prop := keyLtB b a = false

instance : DecidableRel keyLe := fun a b => by
  unfold keyLe; infer_instance

/-- `sorted(entries, key=lambda e: (not e.is_dir(), e.name.lower()))`:
ascending stable sort by the key. -/
def sortedEntries (l : List FSEntry) : List FSEntry :=
  l.insertionSort keyLe

/-- `entry.name.startswith('.')`. -/
def startsWithDot (s : String) : Bool :=
  match s.data with
  | [] => false
  | c :: _ => c == '.'

/-- The loop's `continue` filter: keep an entry when `hidden_files` is set
or its name does not start with a dot. -/
def keepEntry (hidden : Bool) (e : FSEntry) : Bool :=
  hidden || !(startsWithDot e.name)

/-- The entries that survive sorting and hidden-file filtering, in display
order. -/
def survivors (hidden : Bool) (entries : List FSEntry) : List FSEntry :=
  (sortedEntries entries).filter (keepEntry hidden)

/-- `'Directory' if is_directory else 'File'`. -/
def typeName (k : EntryKind) : String :=
  match k with
  | .directory => "Directory"
  | .file => "File"

/-- `'directory' if is_directory else 'file'`. -/
def kindTag (k : EntryKind) : String :=
  match k with
  | .directory => "directory"
  | .file => "file"

/-- The row inserted for a surviving entry: zebra tag alternates with the
running `count` of inserted entries. -/
def entryRow (count : Nat) (e : FSEntry) : Row :=
  { text := e.name
    pathValue := e.path
    typeValue := typeName e.kind
    tags := [kindTag e.kind, if count % 2 == 0 then "evenrow" else "oddrow"] }

/-- The rows for a list of surviving entries, numbered from 0. -/
def entryRows (l : List FSEntry) : List Row :=
  l.enum.map fun p => entryRow p.1 p.2

/-- The `(Empty)` placeholder row: `text='(Empty)'`, `values=('','')`,
`tags=('colored',)`. -/
def emptyRow : Row :=
  { text := "(Empty)", pathValue := "", typeValue := "", tags := ["colored"] }

/-- The `Access Denied` placeholder row. -/
def accessDeniedRow : Row :=
  { text := "Access Denied", pathValue := "Access Denied", typeValue := ""
    tags := [] }

/-- The `Error: <str(e)>` placeholder row. -/
def errorRow (msg : String) : Row :=
  { text := "Error: " ++ msg, pathValue := "Error: " ++ msg, typeValue := ""
    tags := [] }

/-- The synthetic `..` row: `text='..'`,
`values=(os.path.dirname(path), 'Directory')`, `tags=('directory',)`. -/
def dotdotRow (os : OS) (path : String) : Row :=
  { text := "..", pathValue := os.dirname path, typeValue := "Directory"
    tags := ["directory"] }

/-- The body of a successful listing: entry rows for the survivors, or the
single `(Empty)` placeholder when none survive (`has_entries` stays false). -/
def listingBody (hidden : Bool) (entries : List FSEntry) : List Row :=
  let surv := survivors hidden entries
  if surv.isEmpty then [emptyRow] else entryRows surv

/-- `set.add`: append when absent. -/
def addPopulated (l : List String) (x : String) : List String :=
  if x ∈ l then l else l ++ [x]

/-- `FileSystemNavigator._populate_directory(parent, path)`.

The method first deletes every top-level row.  Inside its `try` it reads
`self.navigation_history[0]` (an empty history raises `IndexError`, caught
by the generic handler as `Error: list index out of range`), prepends the
synthetic `..` row when `path` differs from that root, then enumerates
`path`.  On success it inserts the filtered, sorted entries with zebra
tags, records `parent` in `populated_nodes`, sets `current_path = path`,
and appends the `(Empty)` placeholder when nothing survived.  A
`PermissionError` or any other exception is caught and rendered as a single
placeholder row; in those branches neither `current_path`, nor
`navigation_history`, nor `populated_nodes` is touched. -/
def populate_directory (os : OS) (s : NavState) (parent path : String) :
    NavState :=
  let cleared : NavState := { s with rows := [] }
  match s.history.head? with
  | none => { cleared with rows := [errorRow "list index out of range"] }
  | some root =>
    let pre : List Row := if path = root then [] else [dotdotRow os path]
    match os.listing path with
    | .permissionDenied => { cleared with rows := pre ++ [accessDeniedRow] }
    | .error msg => { cleared with rows := pre ++ [errorRow msg] }
    | .ok entries =>
      { cleared with
        rows := pre ++ listingBody s.hiddenFiles entries
        populatedNodes := addPopulated s.populatedNodes parent
        currentPath := some path }

/-- The root node row inserted by `populate_root` before delegating (it is
deleted again by `_populate_directory`'s initial clear). -/
def rootRow (path : String) : Row :=
  { text := path, pathValue := path, typeValue := "", tags := [] }

/-- `FileSystemNavigator.populate_root(path)`.

Clears the view and `populated_nodes`, sets `current_path = path` and
`navigation_history = [path]`, inserts the root node, and calls
`_populate_directory(root_node, path)`; afterwards it adds the root node to
`populated_nodes` again.  The guarded `..` insertion inside its `try` is
dead (`current_path` was just set to `path`), and its own exception
handlers are unreachable because `_populate_directory` catches every
listing exception itself. -/
def populate_root (os : OS) (s : NavState) (path : String) : NavState :=
  let s1 : NavState :=
    { s with
      rows := [rootRow path]
      populatedNodes := []
      currentPath := some path
      history := [path] }
  let s2 := populate_directory os s1 "root0" path
  { s2 with populatedNodes := addPopulated s2.populatedNodes "root0" }

/-- `FileSystemNavigator.navigate_to_directory(path)`.

No-op unless `os.path.isdir(path)`.  With `current_path` equal to `None`
the comparison against `os.path.dirname(self.current_path)` raises an
uncaught `TypeError`, modelled as `none`.  Otherwise the target is appended
to the history exactly when it differs from the parent of `current_path`,
and the directory is listed. -/
def navigate_to_directory (os : OS) (s : NavState) (path : String) :
    Option NavState :=
  if os.isDir path then
    match s.currentPath with
    | none => none
    | some c =>
      let s1 : NavState :=
        if path = os.dirname c then s else { s with history := s.history ++ [path] }
      some (populate_directory os s1 "" path)
  else some s

/-- `FileSystemNavigator.navigate_back()`.

When the history holds more than one entry, pop the current one and list
the new top; otherwise do nothing. -/
def navigate_back (os : OS) (s : NavState) : NavState :=
  if 1 < s.history.length then
    populate_directory os { s with history := s.history.dropLast } ""
      (s.history.dropLast.getLastD "")
  else s

/-- `SystemUtilityGUI._on_double_click`, restricted to one clicked row of a
pane whose navigator is `s`: rows typed `Directory` navigate, the `..` row
routes to `navigate_back`, everything else is ignored. -/
def on_double_click (os : OS) (s : NavState) (row : Row) : Option NavState :=
  if row.typeValue = "Directory" then
    if row.text = ".." then some (navigate_back os s)
    else navigate_to_directory os s row.pathValue
  else some s

/-- A PowerShell command handed to `run_powershell_command`, with the
interpolated source and destination paths. -/
inductive PSCommand
  | copyItem (source dest : String)
  | moveItem (source dest : String)
deriving DecidableEq, Repr

/-- The two panes' navigators owned by `SystemUtilityGUI`. -/
structure GuiState where
  navSource : NavState
  navDest : NavState
deriving DecidableEq, Repr

/-- `SystemUtilityGUI.copy_file`.

`selection` is `_get_selected_path(self.tree_source)` and `confirmReplace`
the answer a `messagebox.askyesno` would return; the runner yields `some
stdout` on success and `none` when the command failed (the method compares
its result against `False`).  The returned list holds every command issued
to the runner.  On success the destination pane is refreshed via
`navigate_to_directory(dest_dir)`; `dest_dir` comes from
`nav_dest.current_path`, so that call cannot hit the `None` case. -/
def copy_file (os : OS) (runner : PSCommand → Option String) (g : GuiState)
    (selection : Option String) (confirmReplace : Bool) :
    GuiState × List PSCommand :=
  match selection with
  | none => (g, [])
  | some sourcePath =>
    match g.navDest.currentPath with
    | none => (g, [])
    | some destDir =>
      let destPath := os.joinPath destDir (os.basename sourcePath)
      if os.pathExists destPath && !confirmReplace then (g, [])
      else
        let cmd := PSCommand.copyItem sourcePath destPath
        match runner cmd with
        | some _ =>
          let navDest' := (navigate_to_directory os g.navDest destDir).getD g.navDest
          ({ g with navDest := navDest' }, [cmd])
        | none => (g, [cmd])

/-- `SystemUtilityGUI.cut_paste_file`.

Like `copy_file` but issuing `Move-Item` and, on success, refreshing the
source pane at `dirname(source_path)` before the destination pane; a
`TypeError` from a source navigator without `current_path` is caught by the
surrounding handler, leaving both panes as they were. -/
def cut_paste_file (os : OS) (runner : PSCommand → Option String)
    (g : GuiState) (selection : Option String) (confirmReplace : Bool) :
    GuiState × List PSCommand :=
  match selection with
  | none => (g, [])
  | some sourcePath =>
    match g.navDest.currentPath with
    | none => (g, [])
    | some destDir =>
      let destPath := os.joinPath destDir (os.basename sourcePath)
      if os.pathExists destPath && !confirmReplace then (g, [])
      else
        let cmd := PSCommand.moveItem sourcePath destPath
        match runner cmd with
        | some _ =>
          match navigate_to_directory os g.navSource (os.dirname sourcePath) with
          | none => (g, [cmd])
          | some navSource' =>
            let navDest' := (navigate_to_directory os g.navDest destDir).getD g.navDest
            ({ g with navSource := navSource', navDest := navDest' }, [cmd])
        | none => (g, [cmd])

/-! Concrete example world used by counterexamples and witnesses: a root
drive `r` containing `Docs/` and `notes.txt`, with `r/Docs/Deep` an empty
directory, plus a permission-denied path and a generally failing path. -/

/-- The `Docs` entry of `r`. -/
def docsEntry : FSEntry := ⟨"Docs", "r/Docs", .directory⟩

/-- The `notes.txt` entry of `r`. -/
def notesEntry : FSEntry := ⟨"notes.txt", "r/notes.txt", .file⟩

/-- The `Deep` entry of `r/Docs`. -/
def deepEntry : FSEntry := ⟨"Deep", "r/Docs/Deep", .directory⟩

/-- Concrete operating-system collaborator for the examples. -/
def exOS : OS where
  listing p :=
    if p = "r" then .ok [docsEntry, notesEntry]
    else if p = "r/Docs" then .ok [deepEntry]
    else if p = "r/Docs/Deep" then .ok []
    else if p = "denied" then .permissionDenied
    else if p = "broken" then .error "boom"
    else .error "No such file or directory"
  isDir p :=
    p = "r" || p = "r/Docs" || p = "r/Docs/Deep" || p = "denied" || p = "broken"
  dirname p :=
    if p = "r/Docs/Deep" then "r/Docs"
    else if p = "r/Docs" then "r"
    else if p = "r/notes.txt" then "r"
    else ""
  basename p :=
    if p = "r/notes.txt" then "notes.txt" else p
  joinPath d f := d ++ "/" ++ f
  pathExists p := p = "d/notes.txt"

/-- A navigator before its first `populate_root`. -/
def exNav0 : NavState :=
  { rows := [], hiddenFiles := false, currentPath := none, history := []
    populatedNodes := [] }

/-- The navigator after `populate_root('r')`. -/
def exNavR : NavState := populate_root exOS exNav0 "r"

/-- Then after `navigate_to_directory('r/Docs')`. -/
def exNavD : NavState := (navigate_to_directory exOS exNavR "r/Docs").getD exNav0

/-- Then after `navigate_to_directory('r/Docs/Deep')`. -/
def exNavDD : NavState := (navigate_to_directory exOS exNavD "r/Docs/Deep").getD exNav0

/-- Then after `navigate_to_directory('r/Docs')` again: the target equals
`dirname(current_path)`, so the code infers a backward move and does not
push it onto the history. -/
def exNavUp : NavState := (navigate_to_directory exOS exNavDD "r/Docs").getD exNav0

/-- From `exNavD`, re-entering the current directory `r/Docs` (as the
copy/move success handlers do to refresh a pane). -/
def exNavDup : NavState := (navigate_to_directory exOS exNavD "r/Docs").getD exNav0

/-- A navigator whose history root is an unreadable path, used to exercise
`navigate_back` into a failing listing. -/
def exNavBackFail : NavState :=
  { rows := [], hiddenFiles := false, currentPath := some "r/Docs"
    history := ["denied", "r/Docs"], populatedNodes := [] }

/-- Whether a listing outcome is one of the two caught exceptions. -/
def isFailure : ListingResult → Bool
  | .ok _ => false
  | .permissionDenied => true
  | .error _ => true

/-- Two entries carry the same Python sort key. -/
def keysEq (a b : FSEntry) : Prop :=
  fileRank a = fileRank b ∧ lowerKey a = lowerKey b

instance : ∀ a b : FSEntry, Decidable (keysEq a b) := fun a b => by
  unfold keysEq; infer_instance

/-- Strict key order as a relation, for sortedness statements. -/
def keyLt (a b : FSEntry) : Prop := keyLtB a b = true

/-- A file named `A`: its sort key ties with `a` case-insensitively. -/
def tieA : FSEntry := ⟨"A", "p/A", .file⟩

/-- A file named `a`: its sort key ties with `A` case-insensitively. -/
def tieB : FSEntry := ⟨"a", "p/a", .file⟩

/-- The `a.txt` file of the listing example. -/
def aTxtEntry : FSEntry := ⟨"a.txt", "p/a.txt", .file⟩

/-- The `B` directory of the listing example. -/
def bDirEntry : FSEntry := ⟨"B", "p/B", .directory⟩

/-- The `.hidden` file of the listing example. -/
def hiddenEntry : FSEntry := ⟨".hidden", "p/.hidden", .file⟩

/-- The listing example `{a.txt, B/, .hidden}` in one on-disk order. -/
def specListA : List FSEntry := [aTxtEntry, bDirEntry, hiddenEntry]

/-- The same entries in reversed on-disk order. -/
def specListB : List FSEntry := [hiddenEntry, bDirEntry, aTxtEntry]

/-- From `exNavR`, attempting to enter the unreadable directory `denied`. -/
def exNavDenied : NavState :=
  (navigate_to_directory exOS exNavR "denied").getD exNav0

/-- A destination-pane navigator sitting at directory `d`. -/
def exNavDest : NavState :=
  { rows := [], hiddenFiles := false, currentPath := some "d", history := ["d"]
    populatedNodes := [] }

/-- A two-pane GUI state for the copy/move examples. -/
def exGui : GuiState := { navSource := exNavR, navDest := exNavDest }

/-- A command runner that always succeeds with empty output. -/
def exRunner : PSCommand → Option String := fun _ => some ""

/-! ### Order facts about the sort key -/

theorem natsLt_irrefl : ∀ l : List Nat, natsLt l l = false
  | [] => rfl
  | a :: as => by simp [natsLt, natsLt_irrefl as]

theorem natsLt_trans {a : List Nat} : ∀ {b c : List Nat},
    natsLt a b = true → natsLt b c = true → natsLt a c = true := by
  induction a with
  | nil =>
    intro b c hab hbc
    cases b with
    | nil => simp [natsLt] at hab
    | cons y ys =>
      cases c with
      | nil => simp [natsLt] at hbc
      | cons z zs => simp [natsLt]
  | cons x xs ih =>
    intro b c hab hbc
    cases b with
    | nil => simp [natsLt] at hab
    | cons y ys =>
      cases c with
      | nil => simp [natsLt] at hbc
      | cons z zs =>
        simp only [natsLt] at hab hbc ⊢
        by_cases hxy : x = y
        · subst hxy
          by_cases hyz : x = z
          · subst hyz
            rw [if_pos rfl] at hab hbc ⊢
            exact ih hab hbc
          · rw [if_pos rfl] at hab
            rw [if_neg hyz] at hbc ⊢
            exact hbc
        · rw [if_neg hxy] at hab
          have hxyn : x < y := of_decide_eq_true hab
          by_cases hyz : y = z
          · subst hyz
            rw [if_neg hxy]
            exact decide_eq_true hxyn
          · rw [if_neg hyz] at hbc
            have hyzn : y < z := of_decide_eq_true hbc
            have hxz : x < z := Nat.lt_trans hxyn hyzn
            rw [if_neg (Nat.ne_of_lt hxz)]
            exact decide_eq_true hxz

theorem natsLt_trichotomy : ∀ a b : List Nat,
    natsLt a b = true ∨ a = b ∨ natsLt b a = true := by
  intro a
  induction a with
  | nil =>
    intro b
    cases b with
    | nil => exact Or.inr (Or.inl rfl)
    | cons y ys => exact Or.inl rfl
  | cons x xs ih =>
    intro b
    cases b with
    | nil => exact Or.inr (Or.inr rfl)
    | cons y ys =>
      rcases Nat.lt_trichotomy x y with h | h | h
      · refine Or.inl ?_
        simp [natsLt, Nat.ne_of_lt h, h]
      · subst h
        rcases ih ys with h2 | h2 | h2
        · exact Or.inl (by simp [natsLt, h2])
        · exact Or.inr (Or.inl (by rw [h2]))
        · exact Or.inr (Or.inr (by simp [natsLt, h2]))
      · refine Or.inr (Or.inr ?_)
        simp [natsLt, Nat.ne_of_lt h, h, Nat.ne_of_gt h]

theorem keyLtB_irrefl (a : FSEntry) : keyLtB a a = false := by
  simp [keyLtB, natsLt_irrefl]

theorem keyLtB_trans {a b c : FSEntry} (h1 : keyLtB a b = true)
    (h2 : keyLtB b c = true) : keyLtB a c = true := by
  simp only [keyLtB, Bool.or_eq_true, Bool.and_eq_true, decide_eq_true_eq] at h1 h2 ⊢
  rcases h1 with h1 | ⟨e1, n1⟩ <;> rcases h2 with h2 | ⟨e2, n2⟩
  · exact Or.inl (Nat.lt_trans h1 h2)
  · exact Or.inl (by omega)
  · exact Or.inl (by omega)
  · exact Or.inr ⟨by omega, natsLt_trans n1 n2⟩

theorem keyLtB_asymm {a b : FSEntry} (h : keyLtB a b = true) :
    keyLtB b a = false := by
  cases hba : keyLtB b a with
  | false => rfl
  | true =>
    have := keyLtB_trans h hba
    rw [keyLtB_irrefl] at this
    exact absurd this (by simp)

theorem keysEq_of_not_lt {a b : FSEntry} (h1 : keyLtB a b = false)
    (h2 : keyLtB b a = false) : keysEq a b := by
  rcases Nat.lt_trichotomy (fileRank a) (fileRank b) with hr | hr | hr
  · rw [keyLtB] at h1
    simp [hr] at h1
  · rcases natsLt_trichotomy (lowerKey a) (lowerKey b) with hk | hk | hk
    · rw [keyLtB] at h1
      simp [hr, hk] at h1
    · exact ⟨hr, hk⟩
    · rw [keyLtB] at h2
      simp [hr.symm, hk] at h2
  · rw [keyLtB] at h2
    simp [hr] at h2

theorem keyLtB_congr_left {a a' : FSEntry} (b : FSEntry) (h : keysEq a a') :
    keyLtB a b = keyLtB a' b := by
  obtain ⟨h1, h2⟩ := h
  simp [keyLtB, h1, h2]

theorem keyLtB_congr_right (a : FSEntry) {b b' : FSEntry} (h : keysEq b b') :
    keyLtB a b = keyLtB a b' := by
  obtain ⟨h1, h2⟩ := h
  simp [keyLtB, h1, h2]

instance : IsTotal FSEntry keyLe :=
  ⟨fun a b => by
    unfold keyLe
    cases h : keyLtB b a with
    | false => exact Or.inl rfl
    | true => exact Or.inr (keyLtB_asymm h)⟩

instance : IsTrans FSEntry keyLe :=
  ⟨fun a b c hab hbc => by
    unfold keyLe at *
    cases hca : keyLtB c a with
    | false => rfl
    | true =>
      exfalso
      cases hab2 : keyLtB a b with
      | true =>
        have := keyLtB_trans hca hab2
        rw [hbc] at this
        exact absurd this (by simp)
      | false =>
        have heq : keysEq a b := keysEq_of_not_lt hab2 hab
        have := keyLtB_congr_right c heq
        rw [hca, hbc] at this
        exact absurd this (by simp)⟩

instance : IsAntisymm FSEntry keyLt :=
  ⟨fun a b h1 h2 => by
    unfold keyLt at h1 h2
    rw [keyLtB_asymm h1] at h2
    exact absurd h2 (by simp)⟩

theorem sortedEntries_perm (l : List FSEntry) : (sortedEntries l).Perm l :=
  List.perm_insertionSort keyLe l

theorem sortedEntries_sorted (l : List FSEntry) :
    (sortedEntries l).Sorted keyLe :=
  List.sorted_insertionSort keyLe l

theorem keysEq_not_symm : ∀ {x y : FSEntry}, ¬ keysEq x y → ¬ keysEq y x :=
  fun h hyx => h ⟨hyx.1.symm, hyx.2.symm⟩

theorem sortedEntries_eq_of_perm {l₁ l₂ : List FSEntry} (h : l₁.Perm l₂)
    (hk : l₁.Pairwise fun a b => ¬ keysEq a b) :
    sortedEntries l₁ = sortedEntries l₂ := by
  have hk₂ : l₂.Pairwise fun a b => ¬ keysEq a b :=
    (h.pairwise_iff keysEq_not_symm).mp hk
  have hp₁ : (sortedEntries l₁).Pairwise fun a b => ¬ keysEq a b :=
    ((sortedEntries_perm l₁).pairwise_iff keysEq_not_symm).mpr hk
  have hp₂ : (sortedEntries l₂).Pairwise fun a b => ¬ keysEq a b :=
    ((sortedEntries_perm l₂).pairwise_iff keysEq_not_symm).mpr hk₂
  have strict : ∀ {x y : FSEntry}, keyLe x y ∧ ¬ keysEq x y → keyLt x y := by
    intro x y ⟨hle, hne⟩
    unfold keyLe at hle
    unfold keyLt
    cases hxy : keyLtB x y with
    | true => rfl
    | false => exact absurd (keysEq_of_not_lt hxy hle) hne
  have hs₁ : (sortedEntries l₁).Sorted keyLt :=
    ((sortedEntries_sorted l₁).and hp₁).imp strict
  have hs₂ : (sortedEntries l₂).Sorted keyLt :=
    ((sortedEntries_sorted l₂).and hp₂).imp strict
  exact List.eq_of_perm_of_sorted
    ((sortedEntries_perm l₁).trans (h.trans (sortedEntries_perm l₂).symm)) hs₁ hs₂

theorem survivors_sorted (hidden : Bool) (l : List FSEntry) :
    (survivors hidden l).Pairwise keyLe :=
  (sortedEntries_sorted l).filter (keepEntry hidden)

theorem mem_survivors {hidden : Bool} {e : FSEntry} {l : List FSEntry} :
    e ∈ survivors hidden l ↔ e ∈ l ∧ keepEntry hidden e = true := by
  unfold survivors
  rw [List.mem_filter, (sortedEntries_perm l).mem_iff]

/-! ### Frame and shape lemmas for the listing step -/

theorem populate_directory_history (os : OS) (s : NavState)
    (parent path : String) :
    (populate_directory os s parent path).history = s.history := by
  unfold populate_directory
  cases s.history.head? with
  | none => rfl
  | some root => cases os.listing path <;> rfl

theorem populate_directory_hiddenFiles (os : OS) (s : NavState)
    (parent path : String) :
    (populate_directory os s parent path).hiddenFiles = s.hiddenFiles := by
  unfold populate_directory
  cases s.history.head? with
  | none => rfl
  | some root => cases os.listing path <;> rfl

theorem populate_directory_rows (os : OS) (s : NavState)
    (parent path root : String) (hroot : s.history.head? = some root) :
    (populate_directory os s parent path).rows =
      (if path = root then [] else [dotdotRow os path]) ++
        (match os.listing path with
         | .ok entries => listingBody s.hiddenFiles entries
         | .permissionDenied => [accessDeniedRow]
         | .error msg => [errorRow msg]) := by
  unfold populate_directory
  rw [hroot]
  cases os.listing path <;> rfl

theorem populate_directory_currentPath_ok (os : OS) (s : NavState)
    (parent path : String) (hne : s.history ≠ []) (entries : List FSEntry)
    (hok : os.listing path = .ok entries) :
    (populate_directory os s parent path).currentPath = some path := by
  unfold populate_directory
  cases hh : s.history.head? with
  | none => exact absurd (List.head?_eq_none_iff.mp hh) hne
  | some root => rw [hok]

theorem populate_directory_frame_fail (os : OS) (s : NavState)
    (parent path : String) (hfail : isFailure (os.listing path) = true) :
    (populate_directory os s parent path).currentPath = s.currentPath
    ∧ (populate_directory os s parent path).populatedNodes = s.populatedNodes := by
  unfold populate_directory
  cases hh : s.history.head? with
  | none => exact ⟨rfl, rfl⟩
  | some root =>
    cases hl : os.listing path with
    | ok entries => rw [hl] at hfail; exact absurd hfail (by simp [isFailure])
    | permissionDenied => exact ⟨rfl, rfl⟩
    | error msg => exact ⟨rfl, rfl⟩

theorem populate_root_spec (os : OS) (s : NavState) (path : String) :
    (populate_root os s path).history = [path]
    ∧ (populate_root os s path).currentPath = some path
    ∧ (populate_root os s path).rows =
        (match os.listing path with
         | .ok entries => listingBody s.hiddenFiles entries
         | .permissionDenied => [accessDeniedRow]
         | .error msg => [errorRow msg]) := by
  unfold populate_root
  refine ⟨?_, ?_, ?_⟩
  · rw [populate_directory_history]
  · cases hl : os.listing path with
    | ok entries =>
      rw [populate_directory_currentPath_ok os _ "root0" path (by simp) entries hl]
    | permissionDenied =>
      rw [(populate_directory_frame_fail os _ "root0" path (by rw [hl]; rfl)).1]
    | error msg =>
      rw [(populate_directory_frame_fail os _ "root0" path (by rw [hl]; rfl)).1]
  · rw [populate_directory_rows os _ "root0" path path (by rfl), if_pos rfl,
      List.nil_append]

/-! ### Claim theorems -/

/-- C3: for every path `P`, `populate_root(P)` yields `history == [P]` and
`current_path == P`, even when listing `P` fails; a permission denial shows
the single `Access Denied` placeholder and any other listing error the
single `Error: <message>` placeholder, no exception escaping. -/
theorem C3_populate_root_spec (os : OS) (s : NavState) (path : String) :
    (populate_root os s path).history = [path]
    ∧ (populate_root os s path).currentPath = some path
    ∧ (os.listing path = .permissionDenied →
        (populate_root os s path).rows = [accessDeniedRow])
    ∧ ∀ msg, os.listing path = .error msg →
        (populate_root os s path).rows = [errorRow msg] := by
  obtain ⟨h1, h2, h3⟩ := populate_root_spec os s path
  refine ⟨h1, h2, ?_, ?_⟩
  · intro hd
    rw [h3]
    simp only [hd]
  · intro msg he
    rw [h3]
    simp only [he]

/-- C3 witness: populating the unreadable root `denied` and the failing
root `broken` concretely. -/
theorem C3_populate_root_spec_witness :
    (populate_root exOS exNav0 "denied").history = ["denied"]
    ∧ (populate_root exOS exNav0 "denied").currentPath = some "denied"
    ∧ (populate_root exOS exNav0 "denied").rows = [accessDeniedRow]
    ∧ (populate_root exOS exNav0 "broken").rows = [errorRow "boom"] := by
  obtain ⟨h1, h2, h3, _⟩ := C3_populate_root_spec exOS exNav0 "denied"
  obtain ⟨_, _, _, h4⟩ := C3_populate_root_spec exOS exNav0 "broken"
  exact ⟨h1, h2, h3 (by decide), h4 "boom" (by decide)⟩

/-- C5: listing errors only affect the displayed view.  The listing step
never touches the history, so after any navigation operation a failed
listing leaves the history exactly as it stood when the listing was
attempted, and leaves `current_path` (and `populated_nodes`) unchanged:
`navigate_to_directory` keeps its appended target, `navigate_back` keeps
the popped history. -/
theorem C5_listing_error_frame (os : OS) (s : NavState) :
    (∀ parent path, (populate_directory os s parent path).history = s.history)
    ∧ (∀ parent path, isFailure (os.listing path) = true →
        (populate_directory os s parent path).currentPath = s.currentPath
        ∧ (populate_directory os s parent path).populatedNodes =
            s.populatedNodes)
    ∧ (∀ path c t, s.currentPath = some c → os.isDir path = true →
        isFailure (os.listing path) = true →
        navigate_to_directory os s path = some t →
        t.history =
          (if path = os.dirname c then s.history else s.history ++ [path])
        ∧ t.currentPath = s.currentPath)
    ∧ (1 < s.history.length → ∀ prev, s.history.dropLast.getLast? = some prev →
        isFailure (os.listing prev) = true →
        (navigate_back os s).history = s.history.dropLast
        ∧ (navigate_back os s).currentPath = s.currentPath) := by
  refine ⟨?_, ?_, ?_, ?_⟩
  · intro parent path
    exact populate_directory_history os s parent path
  · intro parent path hfail
    exact populate_directory_frame_fail os s parent path hfail
  · intro path c t hcur hdir hfail hnav
    rw [navigate_to_directory, hdir] at hnav
    rw [hcur] at hnav
    simp only [if_true] at hnav
    have ht := Option.some.inj hnav
    subst ht
    constructor
    · rw [populate_directory_history]
      by_cases hp : path = os.dirname c
      · rw [if_pos hp, if_pos hp]
      · rw [if_neg hp, if_neg hp]
    · rw [(populate_directory_frame_fail os _ "" path hfail).1]
      by_cases hp : path = os.dirname c
      · rw [if_pos hp]
      · rw [if_neg hp]
        exact hcur.symm
  · intro hlen prev hprev hfail
    unfold navigate_back
    rw [if_pos hlen]
    have hgd : s.history.dropLast.getLastD "" = prev := by
      rw [List.getLastD_eq_getLast?, hprev]
      rfl
    rw [hgd]
    constructor
    · rw [populate_directory_history]
    · exact (populate_directory_frame_fail os _ "" prev hfail).1

/-- C5 witness: a denied listing under `exNavR`, a denied forward
navigation, and a back navigation into a denied directory. -/
theorem C5_listing_error_frame_witness :
    (populate_directory exOS exNavR "" "denied").history = exNavR.history
    ∧ (populate_directory exOS exNavR "" "denied").currentPath =
        exNavR.currentPath
    ∧ exNavDenied.history = exNavR.history ++ ["denied"]
    ∧ exNavDenied.currentPath = exNavR.currentPath
    ∧ (navigate_back exOS exNavBackFail).history = ["denied"]
    ∧ (navigate_back exOS exNavBackFail).currentPath = some "r/Docs" := by
  obtain ⟨p1, p2, p3, _⟩ := C5_listing_error_frame exOS exNavR
  obtain ⟨_, _, _, q4⟩ := C5_listing_error_frame exOS exNavBackFail
  have h3 := p3 "denied" "r" exNavDenied (by decide) (by decide) (by decide)
    (by decide)
  have h4 := q4 (by decide) "denied" (by decide) (by decide)
  refine ⟨p1 "" "denied", (p2 "" "denied" (by decide)).1, ?_, h3.2, h4.1, h4.2⟩
  have := h3.1
  rw [if_neg (by decide)] at this
  exact this

/-- C6: `navigate_back()` on a navigator whose history has length 1 is a
no-op: the whole navigator state, in particular `current_path` and
`history`, is unchanged. -/
theorem C6_navigate_back_noop (os : OS) (s : NavState)
    (h : s.history.length = 1) : navigate_back os s = s := by
  unfold navigate_back
  rw [if_neg (by omega)]

/-- C6 witness: backing out of a freshly populated root does nothing. -/
theorem C6_navigate_back_noop_witness : navigate_back exOS exNavR = exNavR :=
  C6_navigate_back_noop exOS exNavR (by decide)

/-- C7: a readable directory whose listing leaves zero entries after
hidden-file filtering displays exactly one `(Empty)` placeholder row with
an empty path value — the view is not empty and holds no error row (at
most the synthetic `..` row accompanies the placeholder). -/
theorem C7_empty_placeholder (os : OS) (s : NavState)
    (parent path root : String) (entries : List FSEntry)
    (hroot : s.history.head? = some root)
    (hok : os.listing path = .ok entries)
    (hempty : survivors s.hiddenFiles entries = []) :
    (populate_directory os s parent path).rows =
      (if path = root then [] else [dotdotRow os path]) ++ [emptyRow]
    ∧ ((populate_directory os s parent path).rows.filter
        fun r => r.text == "(Empty)") = [emptyRow]
    ∧ emptyRow.pathValue = ""
    ∧ (populate_directory os s parent path).rows ≠ []
    ∧ ∀ r ∈ (populate_directory os s parent path).rows,
        r.text = "(Empty)" ∨ r.text = ".." := by
  have hbody : listingBody s.hiddenFiles entries = [emptyRow] := by
    unfold listingBody
    rw [hempty]
    rfl
  have hrows : (populate_directory os s parent path).rows =
      (if path = root then [] else [dotdotRow os path]) ++ [emptyRow] := by
    rw [populate_directory_rows os s parent path root hroot]
    simp only [hok]
    rw [hbody]
  refine ⟨hrows, ?_, rfl, ?_, ?_⟩
  · rw [hrows]
    by_cases hpr : path = root
    · rw [if_pos hpr]
      rfl
    · rw [if_neg hpr]
      rfl
  · rw [hrows]
    by_cases hpr : path = root
    · rw [if_pos hpr]
      simp
    · rw [if_neg hpr]
      simp
  · rw [hrows]
    intro r hr
    by_cases hpr : path = root
    · rw [if_pos hpr] at hr
      simp at hr
      exact Or.inl (by rw [hr]; rfl)
    · rw [if_neg hpr] at hr
      simp at hr
      rcases hr with hr | hr
      · exact Or.inr (by rw [hr]; rfl)
      · exact Or.inl (by rw [hr]; rfl)

/-- C7 witness: listing the empty directory `r/Docs/Deep`. -/
theorem C7_empty_placeholder_witness :
    ((populate_directory exOS exNavD "" "r/Docs/Deep").rows.filter
        fun r => r.text == "(Empty)") = [emptyRow]
    ∧ (populate_directory exOS exNavD "" "r/Docs/Deep").rows ≠ [] := by
  obtain ⟨_, h2, _, h4, _⟩ := C7_empty_placeholder exOS exNavD "" "r/Docs/Deep"
    "r" [] (by decide) (by decide) (by decide)
  exact ⟨h2, h4⟩

/-- C8: when the copy/move destination `join(dest_dir, basename(src))`
already exists, declining the overwrite confirmation makes both handlers
return before anything happens: no command reaches the external runner and
both panes' navigators (hence their displayed contents) are unchanged. -/
theorem C8_decline_no_command (os : OS) (runner : PSCommand → Option String)
    (g : GuiState) (sourcePath destDir : String)
    (hdest : g.navDest.currentPath = some destDir)
    (hexists :
      os.pathExists (os.joinPath destDir (os.basename sourcePath)) = true) :
    copy_file os runner g (some sourcePath) false = (g, [])
    ∧ cut_paste_file os runner g (some sourcePath) false = (g, [])
    ∧ (copy_file os runner g (some sourcePath) true).2 =
        [PSCommand.copyItem sourcePath
          (os.joinPath destDir (os.basename sourcePath))]
    ∧ (cut_paste_file os runner g (some sourcePath) true).2 =
        [PSCommand.moveItem sourcePath
          (os.joinPath destDir (os.basename sourcePath))] := by
  refine ⟨?_, ?_, ?_, ?_⟩
  · unfold copy_file
    rw [hdest]
    simp [hexists]
  · unfold cut_paste_file
    rw [hdest]
    simp [hexists]
  · unfold copy_file
    rw [hdest]
    simp only [Bool.not_true, Bool.and_false, Bool.false_eq_true, if_false]
    cases hr : runner (PSCommand.copyItem sourcePath
        (os.joinPath destDir (os.basename sourcePath))) <;> simp [hr]
  · unfold cut_paste_file
    rw [hdest]
    simp only [Bool.not_true, Bool.and_false, Bool.false_eq_true, if_false]
    cases hr : runner (PSCommand.moveItem sourcePath
        (os.joinPath destDir (os.basename sourcePath))) with
    | none => simp [hr]
    | some out =>
      cases hs : navigate_to_directory os g.navSource (os.dirname sourcePath)
        <;> simp [hr, hs]

/-- C8 witness: declining to overwrite `d/notes.txt` issues no command and
leaves the concrete GUI state intact. -/
theorem C8_decline_no_command_witness :
    copy_file exOS exRunner exGui (some "r/notes.txt") false = (exGui, [])
    ∧ cut_paste_file exOS exRunner exGui (some "r/notes.txt") false =
        (exGui, [])
    ∧ (copy_file exOS exRunner exGui (some "r/notes.txt") true).2 =
        [PSCommand.copyItem "r/notes.txt"
          (exOS.joinPath "d" (exOS.basename "r/notes.txt"))]
    ∧ (cut_paste_file exOS exRunner exGui (some "r/notes.txt") true).2 =
        [PSCommand.moveItem "r/notes.txt"
          (exOS.joinPath "d" (exOS.basename "r/notes.txt"))] :=
  C8_decline_no_command exOS exRunner exGui "r/notes.txt" "d" (by decide)
    (by decide)

theorem errorRow_text_ne (msg : String) : (errorRow msg).text ≠ ".." := by
  intro h
  have h2 := congrArg String.length h
  rw [show (errorRow msg).text = "Error: " ++ msg from rfl,
    String.length_append] at h2
  have h3 : ("Error: " : String).length = 7 := rfl
  have h4 : (".." : String).length = 2 := rfl
  omega

theorem entryRows_head (e : FSEntry) (rest : List FSEntry) :
    (entryRows (e :: rest)).head? = some (entryRow 0 e) := rfl

theorem navigate_back_spec (os : OS) (s : NavState) (prev : String)
    (entries : List FSEntry) (hlen : 1 < s.history.length)
    (hprev : s.history.dropLast.getLast? = some prev)
    (hok : os.listing prev = .ok entries) :
    (navigate_back os s).history = s.history.dropLast
    ∧ (navigate_back os s).currentPath = some prev := by
  unfold navigate_back
  rw [if_pos hlen]
  have hgd : s.history.dropLast.getLastD "" = prev := by
    rw [List.getLastD_eq_getLast?, hprev]
    rfl
  have hne2 : s.history.dropLast ≠ [] := by
    intro h0
    rw [h0] at hprev
    simp at hprev
  rw [hgd]
  exact ⟨populate_directory_history os _ "" prev,
    populate_directory_currentPath_ok os _ "" prev hne2 entries hok⟩

/-- C9: the synthetic `..` entry is the first row of a listing exactly when
the listed path differs from `history[0]`; its path value is
`dirname(path)`, it is typed and tagged as a directory, and a double-click
on it is routed to `navigate_back` rather than `navigate_to_directory`.
(`os.scandir` never yields an entry named `..`, which the hypothesis
records.) -/
theorem C9_dotdot_iff (os : OS) (s : NavState) (parent path root : String)
    (hroot : s.history.head? = some root)
    (hnames : ∀ entries, os.listing path = .ok entries →
      ∀ e ∈ entries, e.name ≠ "..") :
    ((populate_directory os s parent path).rows.head? =
        some (dotdotRow os path) ↔ path ≠ root)
    ∧ (dotdotRow os path).pathValue = os.dirname path
    ∧ (dotdotRow os path).typeValue = "Directory"
    ∧ (dotdotRow os path).tags = ["directory"]
    ∧ ∀ t, on_double_click os t (dotdotRow os path) =
        some (navigate_back os t) := by
  have hrows := populate_directory_rows os s parent path root hroot
  refine ⟨⟨?_, ?_⟩, rfl, rfl, rfl, fun t => rfl⟩
  · intro hhead hpr
    rw [hrows, if_pos hpr, List.nil_append] at hhead
    cases hl : os.listing path with
    | permissionDenied =>
      simp only [hl] at hhead
      have h5 : ("Access Denied" : String) = ".." :=
        congrArg Row.text (Option.some.inj hhead)
      exact absurd h5 (by decide)
    | error msg =>
      simp only [hl] at hhead
      exact errorRow_text_ne msg (congrArg Row.text (Option.some.inj hhead))
    | ok entries =>
      simp only [hl, listingBody] at hhead
      cases hs : survivors s.hiddenFiles entries with
      | nil =>
        rw [hs] at hhead
        simp only [List.isEmpty_nil, if_true] at hhead
        have h5 : ("(Empty)" : String) = ".." :=
          congrArg Row.text (Option.some.inj hhead)
        exact absurd h5 (by decide)
      | cons e rest =>
        rw [hs] at hhead
        simp only [List.isEmpty_cons, Bool.false_eq_true, if_false] at hhead
        rw [entryRows_head] at hhead
        have hname := congrArg Row.text (Option.some.inj hhead)
        have hmem : e ∈ entries := by
          have : e ∈ survivors s.hiddenFiles entries := by
            rw [hs]
            exact List.mem_cons_self e rest
          exact (mem_survivors.mp this).1
        exact hnames entries hl e hmem hname
  · intro hne
    rw [hrows, if_neg hne]
    rfl

/-- C9 witness: listing `r/Docs` (a non-root directory) concretely. -/
theorem C9_dotdot_iff_witness :
    (populate_directory exOS exNavD "" "r/Docs").rows.head? =
      some (dotdotRow exOS "r/Docs")
    ∧ on_double_click exOS exNavD (dotdotRow exOS "r/Docs") =
        some (navigate_back exOS exNavD) := by
  have hn : ∀ entries, exOS.listing "r/Docs" = .ok entries →
      ∀ e ∈ entries, e.name ≠ ".." := by
    intro entries hE
    have h0 : exOS.listing "r/Docs" = ListingResult.ok [deepEntry] := by decide
    rw [h0] at hE
    injection hE with h1
    intro e he
    rw [← h1] at he
    simp at he
    subst he
    decide
  have h := C9_dotdot_iff exOS exNavD "" "r/Docs" "r" (by decide) hn
  exact ⟨h.1.mpr (by decide), h.2.2.2.2 exNavD⟩

/-- C1 counterexample: from the reachable state `exNavDD` (current
directory `r/Docs/Deep`), the successful `navigate_to_directory('r/Docs')`
— whose target equals `dirname(current_path)` — leaves the history's last
element at `r/Docs/Deep` while `current_path` becomes `r/Docs`, refuting
`history[-1] == current_path` after a successful navigation. -/
theorem C1_nav_invariant_cex :
    exOS.isDir "r/Docs" = true
    ∧ exOS.listing "r/Docs" = ListingResult.ok [deepEntry]
    ∧ navigate_to_directory exOS exNavDD "r/Docs" = some exNavUp
    ∧ exNavUp.currentPath = some "r/Docs"
    ∧ exNavUp.history = ["r", "r/Docs", "r/Docs/Deep"]
    ∧ exNavUp.history.getLast? ≠ exNavUp.currentPath := by
  decide

/-- C1 amended: after `populate_root`, after a successful `navigate_back`,
and after a successful `navigate_to_directory` whose target differs from
`dirname(current_path)`, the history is non-empty and its last element
equals `current_path`.  (When the target equals `dirname(current_path)`,
the path is not appended and the last history element remains the previous
`current_path` — the counterexample.) -/
theorem C1_nav_invariant_amended (os : OS) (s : NavState) :
    (∀ path, (populate_root os s path).history ≠ []
      ∧ (populate_root os s path).history.getLast? =
          (populate_root os s path).currentPath)
    ∧ (∀ path c entries t, s.currentPath = some c → os.isDir path = true →
        path ≠ os.dirname c → os.listing path = .ok entries →
        navigate_to_directory os s path = some t →
        t.history ≠ [] ∧ t.history.getLast? = t.currentPath)
    ∧ (∀ prev entries, 1 < s.history.length →
        s.history.dropLast.getLast? = some prev →
        os.listing prev = .ok entries →
        (navigate_back os s).history ≠ []
        ∧ (navigate_back os s).history.getLast? =
            (navigate_back os s).currentPath) := by
  refine ⟨?_, ?_, ?_⟩
  · intro path
    obtain ⟨h1, h2, _⟩ := populate_root_spec os s path
    rw [h1, h2]
    exact ⟨by simp, rfl⟩
  · intro path c entries t hcur hdir hne hok hnav
    rw [navigate_to_directory, hdir] at hnav
    rw [hcur] at hnav
    simp only [if_true] at hnav
    rw [if_neg hne] at hnav
    have ht := Option.some.inj hnav
    subst ht
    constructor
    · rw [populate_directory_history]
      simp
    · rw [populate_directory_history,
        populate_directory_currentPath_ok os _ "" path (by simp) entries hok]
      exact List.getLast?_concat _
  · intro prev entries hlen hprev hok
    obtain ⟨hh, hc⟩ := navigate_back_spec os s prev entries hlen hprev hok
    refine ⟨?_, ?_⟩
    · rw [hh]
      intro h0
      rw [h0] at hprev
      simp at hprev
    · rw [hh, hc]
      exact hprev

/-- C1 witness: the three amended clauses at concrete navigations under
the example filesystem. -/
theorem C1_nav_invariant_witness :
    ((populate_root exOS exNav0 "r").history ≠ []
      ∧ (populate_root exOS exNav0 "r").history.getLast? =
          (populate_root exOS exNav0 "r").currentPath)
    ∧ (exNavD.history ≠ [] ∧ exNavD.history.getLast? = exNavD.currentPath)
    ∧ ((navigate_back exOS exNavD).history ≠ []
      ∧ (navigate_back exOS exNavD).history.getLast? =
          (navigate_back exOS exNavD).currentPath) := by
  refine ⟨(C1_nav_invariant_amended exOS exNav0).1 "r", ?_, ?_⟩
  · exact (C1_nav_invariant_amended exOS exNavR).2.1 "r/Docs" "r" [deepEntry]
      exNavD (by decide) (by decide) (by decide) (by decide) (by decide)
  · exact (C1_nav_invariant_amended exOS exNavD).2.2 "r"
      [docsEntry, notesEntry] (by decide) (by decide) (by decide)

/-- C2 counterexample: with the navigator at `r/Docs/Deep` (populated from
root `r`), navigating to the reachable existing directory `r/Docs` — the
parent of the current directory — and then calling `navigate_back` lands
on `r/Docs`, not on the pre-call value `r/Docs/Deep`. -/
theorem C2_back_restores_cex :
    exNavDD.currentPath = some "r/Docs/Deep"
    ∧ exOS.isDir "r/Docs" = true
    ∧ navigate_to_directory exOS exNavDD "r/Docs" = some exNavUp
    ∧ (navigate_back exOS exNavUp).currentPath = some "r/Docs"
    ∧ (navigate_back exOS exNavUp).currentPath ≠ exNavDD.currentPath := by
  decide

/-- C2 amended: `navigate_to_directory(X)` followed by `navigate_back()`
restores `current_path` (and the history) provided `X` differs from
`dirname(current_path)` — excluding the inferred go-up case of the
counterexample — assuming the invariant `history[-1] == current_path`
held beforehand and both listings succeed. -/
theorem C2_back_restores_amended (os : OS) (s t : NavState) (x c : String)
    (ex ec : List FSEntry)
    (hcur : s.currentPath = some c)
    (hlast : s.history.getLast? = some c)
    (hdir : os.isDir x = true)
    (hne : x ≠ os.dirname c)
    (hlx : os.listing x = .ok ex)
    (hlc : os.listing c = .ok ec)
    (hnav : navigate_to_directory os s x = some t) :
    (navigate_back os t).currentPath = s.currentPath
    ∧ (navigate_back os t).history = s.history := by
  have hsne : s.history ≠ [] := by
    intro h0
    rw [h0] at hlast
    simp at hlast
  rw [navigate_to_directory, hdir] at hnav
  rw [hcur] at hnav
  simp only [if_true] at hnav
  rw [if_neg hne] at hnav
  have ht := Option.some.inj hnav
  subst ht
  have hth : (populate_directory os
      { s with currentPath := some c, history := s.history ++ [x] }
      "" x).history = s.history ++ [x] :=
    populate_directory_history os _ "" x
  have hlen : 1 < (populate_directory os
      { s with currentPath := some c, history := s.history ++ [x] }
      "" x).history.length := by
    rw [hth, List.length_append]
    have := List.length_pos.mpr hsne
    simp
    omega
  have hprev : (populate_directory os
      { s with currentPath := some c, history := s.history ++ [x] }
      "" x).history.dropLast.getLast? = some c := by
    rw [hth, List.dropLast_concat]
    exact hlast
  obtain ⟨hh, hc2⟩ := navigate_back_spec os _ c ec hlen hprev hlc
  refine ⟨?_, ?_⟩
  · rw [hc2, hcur]
  · rw [hh, hth, List.dropLast_concat]

/-- C2 witness: entering `r/Docs/Deep` from `r/Docs` and backing out
restores `current_path` and the history. -/
theorem C2_back_restores_witness :
    (navigate_back exOS exNavDD).currentPath = exNavD.currentPath
    ∧ (navigate_back exOS exNavDD).history = exNavD.history :=
  C2_back_restores_amended exOS exNavD exNavDD "r/Docs/Deep" "r/Docs" []
    [deepEntry] (by decide) (by decide) (by decide) (by decide) (by decide)
    (by decide) (by decide)

/-- C10: re-entering the current directory `P` (as the copy/move success
handlers do to refresh a pane) appends `P` to the history again whenever
`P` differs from `dirname(P)`, so the history ends with two consecutive
copies of `P`, and the next `navigate_back` re-lists `P` itself instead of
returning to the previously visited directory. -/
theorem C10_refresh_duplicate (os : OS) (s t : NavState) (p : String)
    (hcur : s.currentPath = some p)
    (hlast : s.history.getLast? = some p)
    (hdir : os.isDir p = true)
    (hne : p ≠ os.dirname p)
    (hnav : navigate_to_directory os s p = some t) :
    t.history = s.history ++ [p]
    ∧ t.history.getLast? = some p
    ∧ t.history.dropLast.getLast? = some p
    ∧ ∀ entries, os.listing p = .ok entries →
        (navigate_back os t).currentPath = some p
        ∧ (navigate_back os t).history = s.history := by
  have hsne : s.history ≠ [] := by
    intro h0
    rw [h0] at hlast
    simp at hlast
  rw [navigate_to_directory, hdir] at hnav
  rw [hcur] at hnav
  simp only [if_true] at hnav
  rw [if_neg hne] at hnav
  have ht := Option.some.inj hnav
  subst ht
  have hth : (populate_directory os
      { s with currentPath := some p, history := s.history ++ [p] }
      "" p).history = s.history ++ [p] :=
    populate_directory_history os _ "" p
  refine ⟨hth, ?_, ?_, ?_⟩
  · rw [hth]
    exact List.getLast?_concat _
  · rw [hth, List.dropLast_concat]
    exact hlast
  · intro entries hok
    have hlen : 1 < (populate_directory os
        { s with currentPath := some p, history := s.history ++ [p] }
        "" p).history.length := by
      rw [hth, List.length_append]
      have := List.length_pos.mpr hsne
      simp
      omega
    have hprev : (populate_directory os
        { s with currentPath := some p, history := s.history ++ [p] }
        "" p).history.dropLast.getLast? = some p := by
      rw [hth, List.dropLast_concat]
      exact hlast
    obtain ⟨hh, hc⟩ := navigate_back_spec os _ p entries hlen hprev hok
    refine ⟨hc, ?_⟩
    rw [hh, hth, List.dropLast_concat]

/-- C10 witness: refreshing `r/Docs` in place duplicates it in the history
and `navigate_back` then re-lists `r/Docs`. -/
theorem C10_refresh_duplicate_witness :
    exNavDup.history = exNavD.history ++ ["r/Docs"]
    ∧ exNavDup.history.getLast? = some "r/Docs"
    ∧ exNavDup.history.dropLast.getLast? = some "r/Docs"
    ∧ (navigate_back exOS exNavDup).currentPath = some "r/Docs"
    ∧ (navigate_back exOS exNavDup).history = exNavD.history := by
  obtain ⟨h1, h2, h3, h4⟩ := C10_refresh_duplicate exOS exNavD exNavDup
    "r/Docs" (by decide) (by decide) (by decide) (by decide) (by decide)
  obtain ⟨h5, h6⟩ := h4 [deepEntry] (by decide)
  exact ⟨h1, h2, h3, h5, h6⟩

/-- C4 counterexample: two files named `A` and `a` tie on the
case-insensitive sort key, and Python's stable sort then keeps the
enumeration order, so the displayed listing is not independent of the
on-disk order: the two permuted enumerations yield different row lists. -/
theorem C4_listing_deterministic_cex :
    ([tieA, tieB] : List FSEntry).Perm [tieB, tieA]
    ∧ listingBody false [tieA, tieB] ≠ listingBody false [tieB, tieA] := by
  constructor
  · exact List.Perm.swap tieB tieA []
  · decide

/-- C4 amended: for a fixed `(path, show_hidden)` the displayed listing is
deterministic provided no two entries share the same sort key (kind plus
case-folded name) — in particular always on a case-insensitive filesystem;
dot-prefixed names are excluded unless `show_hidden`, and the rows are
sorted with directories before files and case-insensitively within each
group.  With a case-insensitive tie the stable sort preserves enumeration
order (the counterexample). -/
theorem C4_listing_deterministic_amended (hidden : Bool)
    (l₁ l₂ : List FSEntry) (hperm : l₁.Perm l₂)
    (hk : l₁.Pairwise fun a b => ¬ keysEq a b) :
    listingBody hidden l₁ = listingBody hidden l₂
    ∧ (∀ e ∈ survivors hidden l₁,
        hidden = true ∨ startsWithDot e.name = false)
    ∧ (survivors hidden l₁).Pairwise keyLe
    ∧ ∀ e, e ∈ survivors hidden l₁ ↔ e ∈ l₁ ∧ keepEntry hidden e = true := by
  have hsort := sortedEntries_eq_of_perm hperm hk
  refine ⟨?_, ?_, survivors_sorted hidden l₁, fun e => mem_survivors⟩
  · unfold listingBody survivors
    rw [hsort]
  · intro e he
    have hkeep := (mem_survivors.mp he).2
    unfold keepEntry at hkeep
    cases hidden with
    | true => exact Or.inl rfl
    | false =>
      right
      simpa using hkeep

/-- C4 witness: the `{a.txt, B/, .hidden}` example listed from two on-disk
orders with `show_hidden=false` produces identical, ordered, dot-filtered
rows. -/
theorem C4_listing_deterministic_witness :
    listingBody false specListA = listingBody false specListB
    ∧ (aTxtEntry ∈ survivors false specListA ↔
        aTxtEntry ∈ specListA ∧ keepEntry false aTxtEntry = true)
    ∧ (survivors false specListA).Pairwise keyLe := by
  obtain ⟨h1, _, h3, h4⟩ := C4_listing_deterministic_amended false specListA
    specListB (by decide) (by decide)
  exact ⟨h1, h4 aTxtEntry, h3⟩

end StagingSetup

